import Mathlib

/-!
Verification development for the openmodul rhythm sequencer / loop recorder.

The JavaScript modules `recorder.js` (loop recorder, WAV/MIDI exporters) and
`rhythm.js` (look-ahead clock scheduler) are embedded shallowly: numbers are
rationals (JS numbers are exact on the values exercised here), byte streams
are `List ℕ` with each entry < 256, and the module-level mutable state is an
explicit structure threaded through the operations.
-/

namespace Openmodul

/-- JavaScript `Math.round`: round half toward positive infinity. -/
def jsRound (q : ℚ) : ℤ := ⌊q + 1/2⌋

/-- The ToInteger conversion applied by `DataView.setInt16` to a non-integer
number: truncation toward zero. -/
def jsTrunc (q : ℚ) : ℤ := if 0 ≤ q then ⌊q⌋ else -⌊-q⌋

/-- JS `x || d` on an optional numeric field: `undefined` and `0` are falsy. -/
def jsOr (o : Option ℕ) (d : ℕ) : ℕ :=
  match o with
  | none => d
  | some v => if v = 0 then d else v

/-- Little-endian bytes of `DataView.setUint16` (wraps modulo 2^16). -/
def le16 (n : ℕ) : List ℕ := [n % 256, n / 256 % 256]

/-- Little-endian bytes of `DataView.setUint32` (wraps modulo 2^32). -/
def le32 (n : ℕ) : List ℕ := [n % 256, n / 256 % 256, n / 65536 % 256, n / 16777216 % 256]

/-- `Math.max(-1, Math.min(1, x))` from `audioBufferToWav`. -/
def clampSample (q : ℚ) : ℚ := max (-1) (min 1 q)

/-- `s < 0 ? s * 0x8000 : s * 0x7FFF` followed by the setInt16 truncation:
the 16-bit integer value the WAV encoder computes for one (clamped) sample. -/
def convSample (q : ℚ) : ℤ :=
  let s := clampSample q
  jsTrunc (if s < 0 then s * 32768 else s * 32767)

/-- Two's-complement 16-bit little-endian bytes written by `setInt16`. -/
def int16le (z : ℤ) : List ℕ :=
  let u := (z % 65536).toNat
  [u % 256, u / 256]

/-- One decoded audio buffer: per-channel float sample arrays, a sample rate,
and a channel count (`buffer.numberOfChannels`). -/
structure AudioBuffer where
  numberOfChannels : ℕ
  sampleRate : ℕ
  channelData : List (List ℚ)
deriving Repr, DecidableEq

/-- The stereo interleaving loop of `audioBufferToWav`: `left[i]` is written
at index `2i` and `right[i]` at `2i+1`, for `i` up to `left.length`. -/
def interleave2 (left right : List ℚ) : List ℚ :=
  (List.range left.length).flatMap (fun i => [left.getD i 0, right.getD i 0])

/-- `audioBufferToWav` from recorder.js: a canonical 44-byte RIFF/WAVE header
followed by 16-bit signed little-endian PCM, interleaved when stereo. -/
def audioBufferToWav (buffer : AudioBuffer) : List ℕ :=
  let numChannels := buffer.numberOfChannels
  let sampleRate := buffer.sampleRate
  let interleaved :=
    if numChannels = 2 then
      interleave2 (buffer.channelData.getD 0 []) (buffer.channelData.getD 1 [])
    else buffer.channelData.getD 0 []
  let dataLength := interleaved.length * 2
  [82, 73, 70, 70] ++ le32 (36 + dataLength) ++
  [87, 65, 86, 69] ++ [102, 109, 116, 32] ++
  le32 16 ++ le16 1 ++ le16 numChannels ++ le32 sampleRate ++
  le32 (sampleRate * numChannels * 2) ++
  le16 (numChannels * 2) ++ le16 16 ++
  [100, 97, 116, 97] ++ le32 dataLength ++
  interleaved.flatMap (fun q => int16le (convSample q))

/-- Byte at offset `i` of a byte stream (0 past the end). -/
def byteAt (l : List ℕ) (i : ℕ) : ℕ := l.getD i 0

/-- Decode an unsigned 16-bit little-endian field at offset `off`. -/
def decode16 (l : List ℕ) (off : ℕ) : ℕ := byteAt l off + 256 * byteAt l (off + 1)

/-- Decode an unsigned 32-bit little-endian field at offset `off`. -/
def decode32 (l : List ℕ) (off : ℕ) : ℕ :=
  byteAt l off + 256 * byteAt l (off + 1) + 65536 * byteAt l (off + 2) +
    16777216 * byteAt l (off + 3)

/-- Decode a signed 16-bit value from its two little-endian bytes. -/
def decode16s (l : List ℕ) : ℤ :=
  let u := decode16 l 0
  if u < 32768 then (u : ℤ) else (u : ℤ) - 65536

/-- One logged event: `{time, type, ...data}` appended by `logEvent`; the
spread data carries the optional `midi`, `channel` and `velocity` fields. -/
structure Event where
  time : ℚ
  etype : ℕ
  midi : Option ℕ
  channel : Option ℕ
  velocity : Option ℕ
deriving Repr, DecidableEq

/-- Stable insertion of an event into a time-sorted list (equal times keep
their original relative order, as JS `Array.prototype.sort` does). -/
def insertByTime (e : Event) : List Event → List Event
  | [] => [e]
  | x :: xs => if x.time ≤ e.time then x :: insertByTime e xs else e :: x :: xs

/-- `[...events].sort((a, b) => a.time - b.time)`: stable sort ascending by
`time`, modelled as a stable insertion sort. -/
def sortEvents (events : List Event) : List Event := events.foldr insertByTime []

/-- Auxiliary loop of `writeVarLen`: prepend continuation bytes while the
remaining value is positive.  The first argument is structural fuel; it is
always at least the remaining value, which shrinks by a factor 128 per step,
so the loop never exhausts it and the `while value > 0` loop of the source
is modelled exactly. -/
def writeVarLenAux : ℕ → ℕ → List ℕ → List ℕ
  | _, 0, acc => acc
  | 0, _ + 1, acc => acc
  | fuel + 1, v + 1, acc => writeVarLenAux fuel ((v + 1) / 128) (((v + 1) % 128 + 128) :: acc)

/-- `writeVarLen` from recorder.js: variable-length MIDI integer, 7 bits per
byte, continuation bit 0x80 on all but the last byte. -/
def writeVarLen (value : ℕ) : List ℕ := writeVarLenAux value (value / 128) [value % 128]

/-- The body of the per-event loop of `buildMidiFile`: accumulated track
bytes together with `lastTick`. Events without a `midi` field are skipped.
Note that `lastTick` is advanced only to the note-on's tick: the note-off
delta written after it is never added. -/
def midiEventStep (msPerTick : ℚ) (acc : List ℕ × ℤ) (evt : Event) : List ℕ × ℤ :=
  match evt.midi with
  | none => acc
  | some m =>
    let tick := jsRound (evt.time / msPerTick)
    let delta := tick - acc.2
    let channel := jsOr evt.channel 1 - 1
    let noteDur := jsRound (200 / msPerTick)
    (acc.1 ++ writeVarLen delta.toNat ++
       [Nat.lor 144 channel, Nat.land m 127, Nat.land (jsOr evt.velocity 64) 127] ++
       writeVarLen noteDur.toNat ++
       [Nat.lor 128 channel, Nat.land m 127, 0],
     tick)

/-- `buildMidiFile` from recorder.js: format-0 Standard MIDI File with one
track at 480 ticks/quarter; `durationMs` is accepted but unused, as in the
source. `tempo` is the value `Rhythm.getTempo()` returns at export time. -/
def buildMidiFile (events : List Event) (_durationMs : ℚ) (tempo : ℚ) : List ℕ :=
  let msPerTick : ℚ := (60000 / tempo) / 480
  let sorted := sortEvents events
  let trackData := (sorted.foldl (midiEventStep msPerTick) ([], 0)).1 ++ [0, 255, 47, 0]
  let tempoMicro := (jsRound (60000000 / tempo)).toNat
  let tempoBytes := [0, 255, 81, 3, tempoMicro / 65536 % 256, tempoMicro / 256 % 256,
    tempoMicro % 256]
  let fullTrack := tempoBytes ++ trackData
  let header := [77, 84, 104, 100, 0, 0, 0, 6, 0, 0, 0, 1, 480 / 256 % 256, 480 % 256]
  let trackHeader := [77, 84, 114, 107, fullTrack.length / 16777216 % 256,
    fullTrack.length / 65536 % 256, fullTrack.length / 256 % 256, fullTrack.length % 256]
  header ++ trackHeader ++ fullTrack

/-- Modelled from the spec: variable-length-quantity reader (7 bits per byte,
continuation bit on all but the last), used to re-parse exported files. -/
def readVarLen : ℕ → List ℕ → Option (ℕ × List ℕ)
  | _, [] => none
  | acc, b :: rest =>
    if b < 128 then some (acc * 128 + b, rest) else readVarLen (acc * 128 + (b - 128)) rest

/-- Modelled from the spec: parse a Standard MIDI File track body into
(delta, status) pairs, skipping the data bytes of meta events and of the
two-data-byte channel messages emitted by the exporter. -/
def parseTrack : ℕ → List ℕ → List (ℕ × ℕ)
  | 0, _ => []
  | fuel + 1, bytes =>
    match readVarLen 0 bytes with
    | none => []
    | some (delta, rest) =>
      match rest with
      | [] => []
      | status :: rest2 =>
        if status = 255 then
          match rest2 with
          | _mtype :: len :: r => (delta, status) :: parseTrack fuel (r.drop len)
          | _ => [(delta, status)]
        else (delta, status) :: parseTrack fuel (rest2.drop 2)

/-- Modelled from the spec: the absolute ticks (cumulative delta sums) at
which the Note-On events of an exported MIDI file occur, re-parsed from the
byte stream.  The 22 dropped bytes are the MThd chunk and the MTrk header. -/
def noteOnAbsTicks (file : List ℕ) : List ℕ :=
  let body := file.drop 22
  let evs := parseTrack body.length body
  (evs.foldl
    (fun (acc : List ℕ × ℕ) e =>
      let t := acc.2 + e.1
      (if 144 ≤ e.2 ∧ e.2 < 160 then acc.1 ++ [t] else acc.1, t))
    ([], 0)).1

namespace Recorder

/-- Recorder state tag: `idle | counting-in | recording | overdub | playing`. -/
inductive RState
  | idle
  | countingIn
  | recording
  | overdub
  | playing
deriving Repr, DecidableEq

/-- One finalized layer `{blob, events}`; the audio blob is kept abstract as
the list of accumulated chunk bytes. -/
structure Layer where
  blob : List ℕ
  events : List Event
deriving Repr, DecidableEq

/-- The module-level mutable state of recorder.js.  `mediaActive` stands for
`mediaRecorder && mediaRecorder.state !== 'inactive'`. -/
structure RecState where
  state : RState
  audioChunks : List ℕ
  audioBlob : Option (List ℕ)
  eventLog : List Event
  recordStartTime : ℚ
  playbackStart : ℚ
  loopLengthBars : ℕ
  loopDurationMs : ℚ
  layers : List Layer
  mediaActive : Bool
deriving Repr, DecidableEq

/-- The initial module state (note `loopLengthBars` starts at 4). -/
def initial : RecState := ⟨.idle, [], none, [], 0, 0, 4, 0, [], false⟩

/-- `setLoopLength(bars)`: `none` stands for the `'free'` argument. -/
def setLoopLength (r : RecState) (bars : Option ℕ) (barDuration : ℚ) : RecState :=
  match bars with
  | none => { r with loopLengthBars := 0, loopDurationMs := 0 }
  | some b => { r with loopLengthBars := b, loopDurationMs := b * barDuration * 1000 }

/-- `startRecording()`.  `stream` models `Audio.getMediaStream()` being
non-null.  On success the state becomes counting-in and a count-in callback
is registered with the scheduler (modelled at the `LoopSystem` level). -/
def startRecording (r : RecState) (stream : Bool) : RecState :=
  if r.state = .recording ∨ r.state = .countingIn then r
  else if stream = false then r
  else { r with state := .countingIn }

/-- `actuallyStartRecording(stream)`: runs when the count-in callback fires.
Unconditionally enters recording, clears the working log and chunk list,
stamps the start time, and re-derives the loop duration from the current
bar duration when a fixed bar count is configured. -/
def actuallyStartRecording (r : RecState) (now barDuration : ℚ) : RecState :=
  let r1 := { r with state := .recording, eventLog := [], audioChunks := [],
                     recordStartTime := now, mediaActive := true }
  if 0 < r1.loopLengthBars then
    { r1 with loopDurationMs := r1.loopLengthBars * barDuration * 1000 }
  else r1

/-- `playLoop()`: no-op with zero layers, otherwise enters playing. -/
def playLoop (r : RecState) (now : ℚ) : RecState :=
  if r.layers = [] then r
  else { r with state := .playing, playbackStart := now }

/-- `startOverdub()`: bootstraps to `startRecording` when nothing has been
recorded; otherwise sets overdub state, and only then checks the stream.
With a stream it starts capture and calls `playLoop()`, whose `state =
'playing'` assignment overwrites the just-set overdub state whenever at
least one layer exists. -/
def startOverdub (r : RecState) (stream : Bool) (now : ℚ) : RecState :=
  if r.audioBlob = none ∧ r.layers = [] then startRecording r stream
  else
    let r1 := { r with state := .overdub, eventLog := [], audioChunks := [],
                       recordStartTime := now }
    if stream = false then r1
    else playLoop { r1 with mediaActive := true } now

/-- `stopRecording()`: cancels a count-in back to idle; in recording or
overdub it only asks the media recorder to stop (the state change to idle
happens later, in the asynchronous `onstop` callback). -/
def stopRecording (r : RecState) : RecState :=
  if r.state = .countingIn then { r with state := .idle }
  else if r.state ≠ .recording ∧ r.state ≠ .overdub then r
  else if r.mediaActive then { r with mediaActive := false }
  else r

/-- `onRecordingStop`: finalize a base recording; a free-length take fixes
the loop duration to the measured elapsed time, and the layer list is
replaced by the single new layer. -/
def onRecordingStop (r : RecState) (now : ℚ) : RecState :=
  let r1 :=
    if r.loopDurationMs = 0 then { r with loopDurationMs := now - r.recordStartTime } else r
  { r1 with audioBlob := some r1.audioChunks,
            layers := [⟨r1.audioChunks, r1.eventLog⟩], state := .idle }

/-- `onOverdubStop`: append the new capture as an additional layer. -/
def onOverdubStop (r : RecState) : RecState :=
  { r with layers := r.layers ++ [⟨r.audioChunks, r.eventLog⟩],
           audioBlob := some r.audioChunks, state := .idle }

/-- `logEvent(type, data)`: no-op unless recording or overdubbing. -/
def logEvent (r : RecState) (now : ℚ) (etype : ℕ) (midi channel velocity : Option ℕ) :
    RecState :=
  if r.state ≠ .recording ∧ r.state ≠ .overdub then r
  else { r with eventLog :=
          r.eventLog ++ [⟨now - r.recordStartTime, etype, midi, channel, velocity⟩] }

/-- `stopPlayback()`: unconditionally returns to idle. -/
def stopPlayback (r : RecState) : RecState := { r with state := .idle }

/-- `clear()`: stop playback, discard layers, log, blob and chunks, reset
the computed loop duration.  `loopLengthBars` is not touched. -/
def clear (r : RecState) : RecState :=
  let r1 := stopPlayback r
  { r1 with layers := [], eventLog := [], audioBlob := none, audioChunks := [],
            loopDurationMs := 0, state := .idle }

/-- `getState()`. -/
def getState (r : RecState) : RState := r.state

/-- `exportWAV()`: no-op (no file) with zero layers; otherwise decodes the
first layer's blob (collaborator capability, passed as `decode`) and
encodes it; decode failure abandons the export. -/
def exportWAV (r : RecState) (decode : List ℕ → Option AudioBuffer) : Option (List ℕ) :=
  match r.layers with
  | [] => none
  | l :: _ =>
    match decode l.blob with
    | none => none
    | some buffer => some (audioBufferToWav buffer)

/-- `exportMIDI()`: no-op (no file) when the concatenated event log of all
layers is empty; otherwise builds the MIDI file at the current tempo. -/
def exportMIDI (r : RecState) (tempo : ℚ) : Option (List ℕ) :=
  let allEvents := r.layers.flatMap Layer.events
  if allEvents = [] then none
  else some (buildMidiFile allEvents r.loopDurationMs tempo)

/-- The recorder together with the one-shot count-in callback held by the
scheduler (`Rhythm.countInCallback`, wrapping `actuallyStartRecording`).
The recorder has no channel back to the scheduler, so `stopRecording`
cannot clear the pending callback. -/
structure LoopSystem where
  recorder : RecState
  countInArmed : Bool
deriving Repr, DecidableEq

/-- `Recorder.startRecording()` at the system level: on the successful path
it registers the count-in callback with the scheduler. -/
def sysStartRecording (sys : LoopSystem) (stream : Bool) : LoopSystem :=
  if sys.recorder.state = .recording ∨ sys.recorder.state = .countingIn then sys
  else if stream = false then sys
  else { recorder := { sys.recorder with state := .countingIn }, countInArmed := true }

/-- `Recorder.stopRecording()` at the system level: the scheduler-held
callback is untouched. -/
def sysStopRecording (sys : LoopSystem) : LoopSystem :=
  { sys with recorder := stopRecording sys.recorder }

/-- The scheduler reaching the armed bar boundary: it consumes the one-shot
callback, which runs `actuallyStartRecording(stream)` unconditionally. -/
def sysFireCountIn (sys : LoopSystem) (now barDuration : ℚ) : LoopSystem :=
  if sys.countInArmed then
    { recorder := actuallyStartRecording sys.recorder now barDuration, countInArmed := false }
  else sys

/-- Modelled from the spec: the transitions defined by the section 4.3
state machine, as source-target pairs (including the any-state-to-Idle
edges of `clear()`). -/
def section43Edge : RState → RState → Bool
  | .idle, .countingIn => true
  | .countingIn, .recording => true
  | .countingIn, .idle => true
  | .recording, .idle => true
  | .idle, .overdub => true
  | .overdub, .idle => true
  | .idle, .playing => true
  | .playing, .idle => true
  | _, _ => false

/-- The additional source-target pairs the implementation can produce, all
absent from the section 4.3 state machine: the recording/overdub/playback
entry points are not guarded by the current state. -/
def extraEdge : RState → RState → Bool
  | .playing, .countingIn => true
  | .overdub, .countingIn => true
  | .countingIn, .overdub => true
  | .recording, .overdub => true
  | .playing, .overdub => true
  | .countingIn, .playing => true
  | .recording, .playing => true
  | .overdub, .playing => true
  | _, _ => false

end Recorder

namespace Rhythm

/-- `SCHEDULE_AHEAD = 0.1` seconds. -/
def SCHEDULE_AHEAD : ℚ := 1/10

/-- The module-level mutable state of rhythm.js.  The step count of the
active pattern is carried as a field (`getPatternSteps()`; 12 or 16 for the
patterns in the source table).  `countInPending` models
`countInCallback !== null`, and `countInWasMetronomeOn` the
`wasMetronomeOn` value captured by the callback closure. -/
structure SchedState where
  playing : Bool
  tempo : ℚ
  currentStep : ℕ
  patternSteps : ℕ
  nextStepTime : ℚ
  metronomeOn : Bool
  countInPending : Bool
  countInStep : ℤ
  countInWasMetronomeOn : Bool
deriving Repr, DecidableEq

/-- `getStepDuration()`: one sixteenth note, `60 / tempo / 4` seconds. -/
def getStepDuration (st : SchedState) : ℚ := 60 / st.tempo / 4

/-- The state effect of `scheduleStep(step, time)` together with whether the
count-in callback fires for this step.  Audio/MIDI dispatch and the visual
indicator touch no scheduler state.  The callback body (which restores the
metronome flag when it had been off) is deferred with `setTimeout(cb, 0)`
in the source; its metronome restore is applied here at fire time, which no
scheduler-state observation below distinguishes. -/
def scheduleStep (st : SchedState) (step : ℕ) : SchedState × Bool :=
  if st.countInPending = true ∧ step = 0 then
    if 0 < st.countInStep then
      ({ st with countInStep := st.countInStep - 1 }, false)
    else
      ({ st with countInPending := false, countInStep := -1,
                 metronomeOn := if st.countInWasMetronomeOn then st.metronomeOn else false },
       true)
  else (st, false)

/-- One iteration of the `while` body of `scheduler()`: dispatch the current
step at `nextStepTime`, advance `nextStepTime` by exactly one step duration
(additive, never re-derived from the clock) and the step index modulo the
pattern length. -/
def loopBody (st : SchedState) : SchedState × Bool :=
  let (st1, fired) := scheduleStep st st.currentStep
  ({ st1 with nextStepTime := st1.nextStepTime + getStepDuration st1,
              currentStep := (st1.currentStep + 1) % st1.patternSteps },
   fired)

/-- The `while (nextStepTime < ctx.currentTime + SCHEDULE_AHEAD)` loop of
`scheduler()`, with structural fuel bounding the number of iterations; it
returns the `(step, time)` pairs dispatched during this wake-up.  (With no
audio clock the source returns before the loop and schedules nothing.) -/
def schedLoop : ℕ → SchedState → ℚ → List (ℕ × ℚ) × SchedState
  | 0, st, _ => ([], st)
  | fuel + 1, st, now =>
    if st.nextStepTime < now + SCHEDULE_AHEAD then
      let ev := (st.currentStep, st.nextStepTime)
      let st2 := (loopBody st).1
      let (evs, stF) := schedLoop fuel st2 now
      (ev :: evs, stF)
    else ([], st)

/-- A sequence of `scheduler()` wake-ups at the given clock times, as driven
by the `setInterval` timer; all dispatched `(step, time)` pairs in order. -/
def schedRun : SchedState → List ℚ → ℕ → List (ℕ × ℚ) × SchedState
  | st, [], _ => ([], st)
  | st, now :: rest, fuel =>
    let (evs, st1) := schedLoop fuel st now
    let (evs2, stF) := schedRun st1 rest fuel
    (evs ++ evs2, stF)

/-- `start()`: begin at step 0 with `nextStepTime = ctx.currentTime`. -/
def start (st : SchedState) (ctxTime : ℚ) : SchedState :=
  if st.playing = true then st
  else { st with playing := true, currentStep := 0, nextStepTime := ctxTime }

/-- `stop()`: idempotent; resets the step index to 0. -/
def stop (st : SchedState) : SchedState :=
  if st.playing = false then st
  else { st with playing := false, currentStep := 0 }

/-- `startCountIn(beatsCount, callback)`: force the metronome on, start the
scheduler when idle, and arm the one-shot callback with `countInStep` 1
(idle: the immediate step 0 is not a valid boundary) or 0 (running: next
natural step-0 arrival). -/
def startCountIn (st : SchedState) (ctxTime : ℚ) : SchedState :=
  let wasMetronomeOn := st.metronomeOn
  let wasPlaying := st.playing
  let st1 := { st with metronomeOn := true }
  let st2 := if st1.playing = true then st1 else start st1 ctxTime
  { st2 with countInPending := true,
             countInStep := if wasPlaying then 0 else 1,
             countInWasMetronomeOn := wasMetronomeOn }

/-- The scheduler state after `k` scheduled steps (iterated loop body). -/
def iterBody : SchedState → ℕ → SchedState
  | st, 0 => st
  | st, k + 1 => (loopBody (iterBody st k)).1

/-- Whether the count-in callback fires at the `k`-th scheduled step. -/
def firesAt (st : SchedState) (k : ℕ) : Bool := (loopBody (iterBody st k)).2

end Rhythm

/-! ### Shared helper lemmas -/

/-- `scheduleStep` only touches the count-in and metronome fields. -/
theorem scheduleStep_fields (st : Rhythm.SchedState) (step : ℕ) :
    ((Rhythm.scheduleStep st step).1).tempo = st.tempo
    ∧ ((Rhythm.scheduleStep st step).1).patternSteps = st.patternSteps
    ∧ ((Rhythm.scheduleStep st step).1).currentStep = st.currentStep
    ∧ ((Rhythm.scheduleStep st step).1).nextStepTime = st.nextStepTime := by
  unfold Rhythm.scheduleStep
  split <;> [skip; simp]
  split <;> simp

/-- One loop-body iteration advances `nextStepTime` by exactly one step
duration and the step index by one modulo the pattern length, and keeps
tempo and pattern length. -/
theorem loopBody_fields (st : Rhythm.SchedState) :
    (Rhythm.loopBody st).1.tempo = st.tempo
    ∧ (Rhythm.loopBody st).1.patternSteps = st.patternSteps
    ∧ (Rhythm.loopBody st).1.currentStep = (st.currentStep + 1) % st.patternSteps
    ∧ (Rhythm.loopBody st).1.nextStepTime = st.nextStepTime + Rhythm.getStepDuration st := by
  obtain ⟨h1, h2, h3, h4⟩ := scheduleStep_fields st st.currentStep
  simp [Rhythm.loopBody, Rhythm.getStepDuration, h1, h2, h3, h4]

/-- Invariant of one scheduler wake-up: when `c` steps have been dispatched
so far (so `nextStepTime = t0 + c·dur` and the step index is `c mod N`),
the wake-up dispatches some `m` further steps whose scheduled times continue
the exact arithmetic progression, and the state keeps the invariant. -/
theorem schedLoop_spec (fuel : ℕ) (st : Rhythm.SchedState) (now t0 : ℚ) (c : ℕ)
    (htime : st.nextStepTime = t0 + c * (60 / st.tempo / 4))
    (hstep : st.currentStep = c % st.patternSteps) :
    ∃ m, (Rhythm.schedLoop fuel st now).1
        = (List.range m).map
            (fun i => ((c + i) % st.patternSteps, t0 + (c + i) * (60 / st.tempo / 4)))
      ∧ (Rhythm.schedLoop fuel st now).2.tempo = st.tempo
      ∧ (Rhythm.schedLoop fuel st now).2.patternSteps = st.patternSteps
      ∧ (Rhythm.schedLoop fuel st now).2.nextStepTime = t0 + (c + m) * (60 / st.tempo / 4)
      ∧ (Rhythm.schedLoop fuel st now).2.currentStep = (c + m) % st.patternSteps := by
  induction fuel generalizing st c with
  | zero =>
    refine ⟨0, ?_⟩
    simp [Rhythm.schedLoop, htime, hstep]
  | succ n ih =>
    by_cases hcond : st.nextStepTime < now + Rhythm.SCHEDULE_AHEAD
    · obtain ⟨hf1, hf2, hf3, hf4⟩ := loopBody_fields st
      have htime2 : (Rhythm.loopBody st).1.nextStepTime
          = t0 + ((c + 1 : ℕ) : ℚ) * (60 / (Rhythm.loopBody st).1.tempo / 4) := by
        rw [hf4, hf1, htime, Rhythm.getStepDuration]
        push_cast
        ring
      have hstep2 : (Rhythm.loopBody st).1.currentStep
          = (c + 1) % (Rhythm.loopBody st).1.patternSteps := by
        rw [hf3, hf2, hstep, Nat.mod_add_mod]
      obtain ⟨m, hm, g1, g2, g3, g4⟩ := ih (Rhythm.loopBody st).1 (c + 1) htime2 hstep2
      refine ⟨m + 1, ?_, ?_, ?_, ?_, ?_⟩
      · simp only [Rhythm.schedLoop, if_pos hcond]
        rw [hm, hstep, htime, List.range_succ_eq_map]
        simp only [List.map_cons, List.map_map, List.cons.injEq]
        refine ⟨by simp, ?_⟩
        rw [hf1, hf2]
        apply List.map_congr_left
        intro a _
        simp only [Function.comp_apply, Prod.mk.injEq]
        constructor
        · congr 1
          omega
        · push_cast
          ring_nf
      · simp only [Rhythm.schedLoop, if_pos hcond]
        rw [g1, hf1]
      · simp only [Rhythm.schedLoop, if_pos hcond]
        rw [g2, hf2]
      · simp only [Rhythm.schedLoop, if_pos hcond]
        rw [g3, hf1]
        congr 1
        push_cast
        ring
      · simp only [Rhythm.schedLoop, if_pos hcond]
        rw [g4]
        congr 1
        omega
    · refine ⟨0, ?_⟩
      simp only [Rhythm.schedLoop, if_neg hcond]
      simp [htime, hstep]

/-- The wake-up invariant extended over any sequence of wake-up times: the
dispatched steps over the whole run form one arithmetic progression from
`t0`, independent of the wake-up times. -/
theorem schedRun_spec (nows : List ℚ) (fuel : ℕ) (st : Rhythm.SchedState) (t0 : ℚ) (c : ℕ)
    (htime : st.nextStepTime = t0 + c * (60 / st.tempo / 4))
    (hstep : st.currentStep = c % st.patternSteps) :
    ∃ m, (Rhythm.schedRun st nows fuel).1
        = (List.range m).map
            (fun i => ((c + i) % st.patternSteps, t0 + (c + i) * (60 / st.tempo / 4)))
      ∧ (Rhythm.schedRun st nows fuel).2.tempo = st.tempo
      ∧ (Rhythm.schedRun st nows fuel).2.patternSteps = st.patternSteps
      ∧ (Rhythm.schedRun st nows fuel).2.nextStepTime = t0 + (c + m) * (60 / st.tempo / 4)
      ∧ (Rhythm.schedRun st nows fuel).2.currentStep = (c + m) % st.patternSteps := by
  induction nows generalizing st c with
  | nil =>
    refine ⟨0, ?_⟩
    simp [Rhythm.schedRun, htime, hstep]
  | cons now rest ih =>
    obtain ⟨m1, hm1, g1, g2, g3, g4⟩ := schedLoop_spec fuel st now t0 c htime hstep
    have htime2 : (Rhythm.schedLoop fuel st now).2.nextStepTime
        = t0 + ((c + m1 : ℕ) : ℚ) * (60 / (Rhythm.schedLoop fuel st now).2.tempo / 4) := by
      rw [g3, g1]
      push_cast
      ring
    have hstep2 : (Rhythm.schedLoop fuel st now).2.currentStep
        = (c + m1) % (Rhythm.schedLoop fuel st now).2.patternSteps := by
      rw [g4, g2]
    obtain ⟨m2, hm2, k1, k2, k3, k4⟩ := ih (Rhythm.schedLoop fuel st now).2 (c + m1) htime2 hstep2
    refine ⟨m1 + m2, ?_, ?_, ?_, ?_, ?_⟩
    · simp only [Rhythm.schedRun]
      rw [hm1, hm2, g1, g2, List.range_add, List.map_append, List.map_map]
      congr 1
      apply List.map_congr_left
      intro a _
      simp only [Function.comp_apply, Prod.mk.injEq]
      constructor
      · congr 1
        omega
      · push_cast
        ring_nf
    · simp only [Rhythm.schedRun]
      rw [k1, g1]
    · simp only [Rhythm.schedRun]
      rw [k2, g2]
    · simp only [Rhythm.schedRun]
      rw [k3, g1]
      congr 1
      push_cast
      ring
    · simp only [Rhythm.schedRun]
      rw [k4]
      congr 1
      omega

/-- Decoding the two little-endian bytes written by `setInt16` recovers any
integer in the signed 16-bit range. -/
theorem int16le_decode (z : ℤ) (h1 : -32768 ≤ z) (h2 : z ≤ 32767) :
    decode16s (int16le z) = z := by
  simp only [int16le, decode16s, decode16, byteAt, List.getD_cons_zero, List.getD_cons_succ]
  omega

/-- A step that is not an armed bar boundary leaves the count-in state
unchanged and does not fire. -/
theorem loopBody_pass (st : Rhythm.SchedState)
    (h : st.countInPending = false ∨ st.currentStep ≠ 0) :
    (Rhythm.loopBody st).2 = false
    ∧ (Rhythm.loopBody st).1.countInPending = st.countInPending
    ∧ (Rhythm.loopBody st).1.countInStep = st.countInStep := by
  have hcond : ¬(st.countInPending = true ∧ st.currentStep = 0) := by
    rcases h with h | h <;> simp [h]
  simp [Rhythm.loopBody, Rhythm.scheduleStep, hcond]

/-- An armed bar boundary with skips left decrements `countInStep` and does
not fire. -/
theorem loopBody_skip (st : Rhythm.SchedState) (hp : st.countInPending = true)
    (hs0 : st.currentStep = 0) (hc : 0 < st.countInStep) :
    (Rhythm.loopBody st).2 = false
    ∧ (Rhythm.loopBody st).1.countInPending = true
    ∧ (Rhythm.loopBody st).1.countInStep = st.countInStep - 1 := by
  simp [Rhythm.loopBody, Rhythm.scheduleStep, hp, hs0, hc]

/-- An armed bar boundary with no skips left fires and consumes the
one-shot callback. -/
theorem loopBody_fire (st : Rhythm.SchedState) (hp : st.countInPending = true)
    (hs0 : st.currentStep = 0) (hc : ¬ 0 < st.countInStep) :
    (Rhythm.loopBody st).2 = true
    ∧ (Rhythm.loopBody st).1.countInPending = false := by
  simp [Rhythm.loopBody, Rhythm.scheduleStep, hp, hs0, hc]

/-- Unfolding of the step iteration. -/
theorem iterBody_succ (st : Rhythm.SchedState) (k : ℕ) :
    Rhythm.iterBody st (k + 1) = (Rhythm.loopBody (Rhythm.iterBody st k)).1 := rfl

/-- The step iteration is additive. -/
theorem iterBody_add (st : Rhythm.SchedState) (a b : ℕ) :
    Rhythm.iterBody st (a + b) = Rhythm.iterBody (Rhythm.iterBody st a) b := by
  induction b with
  | zero => rfl
  | succ b ih => rw [← Nat.add_assoc, iterBody_succ, ih, iterBody_succ]

/-- Firing after `a + b` steps is firing after `b` steps from the state
after `a` steps. -/
theorem firesAt_add (st : Rhythm.SchedState) (a b : ℕ) :
    Rhythm.firesAt st (a + b) = Rhythm.firesAt (Rhythm.iterBody st a) b := by
  simp [Rhythm.firesAt, iterBody_add]

/-- Once the one-shot callback is consumed it stays consumed. -/
theorem iterBody_pending_false (st : Rhythm.SchedState) (h : st.countInPending = false) :
    ∀ k, (Rhythm.iterBody st k).countInPending = false := by
  intro k
  induction k with
  | zero => exact h
  | succ k ih => rw [iterBody_succ, (loopBody_pass _ (Or.inl ih)).2.1, ih]

/-- With no pending callback, no step ever fires. -/
theorem firesAt_of_pending_false (st : Rhythm.SchedState) (h : st.countInPending = false)
    (k : ℕ) : Rhythm.firesAt st k = false :=
  (loopBody_pass _ (Or.inl (iterBody_pending_false st h k))).1

/-- From a state with an armed callback and no skips left, the callback
fires exactly at the first arrival of step 0 — after
`(N − currentStep) mod N` further scheduled steps — and never again. -/
theorem coreFire (st : Rhythm.SchedState) (hp : st.countInPending = true)
    (hc : st.countInStep = 0) (hs : st.currentStep < st.patternSteps) :
    ∀ k, (Rhythm.firesAt st k = true
      ↔ k = (st.patternSteps - st.currentStep) % st.patternSteps) := by
  have aux : ∀ j, j ≤ (st.patternSteps - st.currentStep) % st.patternSteps →
      (Rhythm.iterBody st j).countInPending = true
      ∧ (Rhythm.iterBody st j).countInStep = 0
      ∧ (Rhythm.iterBody st j).currentStep = (st.currentStep + j) % st.patternSteps
      ∧ (Rhythm.iterBody st j).patternSteps = st.patternSteps := by
    intro j
    induction j with
    | zero =>
      intro _
      refine ⟨hp, hc, ?_, rfl⟩
      simp only [Rhythm.iterBody, Nat.add_zero]
      rw [Nat.mod_eq_of_lt hs]
    | succ j ihj =>
      intro hj
      obtain ⟨p1, p2, p3, p4⟩ := ihj (by omega)
      have hjlt : j < (st.patternSteps - st.currentStep) % st.patternSteps := hj
      have hstep_ne : (Rhythm.iterBody st j).currentStep ≠ 0 := by
        rw [p3]
        by_cases hs0 : st.currentStep = 0
        · exfalso
          rw [hs0, Nat.sub_zero, Nat.mod_self] at hjlt
          omega
        · have hklt : (st.patternSteps - st.currentStep) % st.patternSteps
              = st.patternSteps - st.currentStep := Nat.mod_eq_of_lt (by omega)
          rw [hklt] at hjlt
          rw [Nat.mod_eq_of_lt (by omega)]
          omega
      obtain ⟨f1, f2, f3⟩ := loopBody_pass (Rhythm.iterBody st j) (Or.inr hstep_ne)
      obtain ⟨q1, q2, q3, q4⟩ := loopBody_fields (Rhythm.iterBody st j)
      refine ⟨?_, ?_, ?_, ?_⟩
      · rw [iterBody_succ, f2, p1]
      · rw [iterBody_succ, f3, p2]
      · rw [iterBody_succ, q3, p3, p4, Nat.mod_add_mod, ← Nat.add_assoc]
      · rw [iterBody_succ, q2, p4]
  have hk0 : Rhythm.firesAt st ((st.patternSteps - st.currentStep) % st.patternSteps) = true
      ∧ (Rhythm.iterBody st
          ((st.patternSteps - st.currentStep) % st.patternSteps + 1)).countInPending = false := by
    obtain ⟨p1, p2, p3, p4⟩ := aux _ le_rfl
    have hzero : (Rhythm.iterBody st
        ((st.patternSteps - st.currentStep) % st.patternSteps)).currentStep = 0 := by
      rw [p3]
      by_cases hs0 : st.currentStep = 0
      · rw [hs0, Nat.sub_zero, Nat.mod_self]
        simp
      · rw [Nat.mod_eq_of_lt (show st.patternSteps - st.currentStep < st.patternSteps by omega),
          show st.currentStep + (st.patternSteps - st.currentStep) = st.patternSteps by omega,
          Nat.mod_self]
    have hf := loopBody_fire _ p1 hzero (by rw [p2]; norm_num)
    exact ⟨hf.1, by rw [iterBody_succ, hf.2]⟩
  intro k
  rcases lt_trichotomy k ((st.patternSteps - st.currentStep) % st.patternSteps) with h | h | h
  · obtain ⟨p1, p2, p3, p4⟩ := aux k (by omega)
    have hstep_ne : (Rhythm.iterBody st k).currentStep ≠ 0 := by
      rw [p3]
      by_cases hs0 : st.currentStep = 0
      · exfalso
        rw [hs0, Nat.sub_zero, Nat.mod_self] at h
        omega
      · have hklt : (st.patternSteps - st.currentStep) % st.patternSteps
            = st.patternSteps - st.currentStep := Nat.mod_eq_of_lt (by omega)
        rw [hklt] at h
        rw [Nat.mod_eq_of_lt (by omega)]
        omega
    have hff : Rhythm.firesAt st k = false := (loopBody_pass _ (Or.inr hstep_ne)).1
    simp [hff]
    omega
  · simp [h, hk0.1]
  · have hd : k = ((st.patternSteps - st.currentStep) % st.patternSteps + 1)
        + (k - (st.patternSteps - st.currentStep) % st.patternSteps - 1) := by omega
    rw [hd, firesAt_add, firesAt_of_pending_false _ hk0.2]
    simp
    omega

/-- Modelled from the spec: the claimed per-sample scaling for an in-range
sample — ×32767 when positive (or zero), ×32768 when negative — followed by
the 16-bit integer truncation. -/
def specScale (q : ℚ) : ℤ := jsTrunc (if q < 0 then q * 32768 else q * 32767)

/-- Modelled from the spec: interleaving of two equal-length channels,
left sample first. -/
def specInterleave (left right : List ℚ) : List ℚ :=
  (left.zip right).flatMap (fun p => [p.1, p.2])

/-- On samples already in [-1, 1] the encoder's clamp is the identity, so
its sample conversion agrees with the claimed scaling. -/
theorem convSample_eq_spec (q : ℚ) (h1 : -1 ≤ q) (h2 : q ≤ 1) :
    convSample q = specScale q := by
  unfold convSample specScale clampSample
  rw [min_eq_right h2, max_eq_right h1]

/-- `flatMap` respects pointwise-equal functions. -/
theorem flatMap_congr (l : List α) (f g : α → List β) (h : ∀ x ∈ l, f x = g x) :
    l.flatMap f = l.flatMap g := by
  induction l with
  | nil => rfl
  | cons a l ih =>
    rw [List.flatMap_cons, List.flatMap_cons, h a (by simp), ih (fun x hx => h x (by simp [hx]))]

/-- `flatMap` with two-element blocks doubles the length. -/
theorem length_flatMap_two (l : List α) (f : α → List β) (h : ∀ x, (f x).length = 2) :
    (l.flatMap f).length = 2 * l.length := by
  induction l with
  | nil => rfl
  | cons a l ih =>
    rw [List.flatMap_cons, List.length_append, h, ih, List.length_cons]
    ring

/-- The index-driven interleaving loop of the source equals the claimed
zip-based interleaving on equal-length channels. -/
theorem interleave2_eq_spec (L R : List ℚ) (h : L.length = R.length) :
    interleave2 L R = specInterleave L R := by
  induction L generalizing R with
  | nil =>
    have : R = [] := by
      cases R
      · rfl
      · simp at h
    subst this
    rfl
  | cons a L ih =>
    cases R with
    | nil => simp at h
    | cons b R =>
      have h2 : L.length = R.length := by simpa using h
      show (List.range (a :: L).length).flatMap
          (fun i => [(a :: L).getD i 0, (b :: R).getD i 0]) = _
      rw [List.length_cons, List.range_succ_eq_map, List.flatMap_cons, List.flatMap_map]
      have hrest : (List.range L.length).flatMap
          (fun i => [(a :: L).getD (Nat.succ i) 0, (b :: R).getD (Nat.succ i) 0])
          = interleave2 L R := by
        apply flatMap_congr
        intro x _
        simp [List.getD_cons_succ]
      calc [(a :: L).getD 0 0, (b :: R).getD 0 0]
            ++ (List.range L.length).flatMap
                (fun i => [(a :: L).getD (Nat.succ i) 0, (b :: R).getD (Nat.succ i) 0])
          = [a, b] ++ interleave2 L R := by rw [hrest]; rfl
        _ = specInterleave (a :: L) (b :: R) := by
            rw [ih R h2]
            simp [specInterleave, List.zip_cons_cons, List.flatMap_cons]

/-- A recorder state in playing mode holding one layer. -/
def recPlaying : Recorder.RecState :=
  { Recorder.initial with state := .playing, layers := [⟨[], []⟩], audioBlob := some [] }

/-- A recorder state obtained by configuring an 8-bar loop length (with a
2-second bar) from the initial state. -/
def recConfigured : Recorder.RecState :=
  Recorder.setLoopLength Recorder.initial (some 8) 2

/-- The relation asserted by the state-totality claim, extended with the
extra transitions the implementation permits: the method either left the
state unchanged, or moved along a section 4.3 edge, or along one of the
unguarded extra edges. -/
def TransOK (r r' : Recorder.RecState) : Prop :=
  r'.state = r.state ∨ Recorder.section43Edge r.state r'.state = true ∨
    Recorder.extraEdge r.state r'.state = true

/-! ### Claim theorems -/

/-- C8: scheduler stop is idempotent — stopping an already stopped
scheduler changes nothing, any stop from a reachable state (playing, or
already reset) leaves the step index at 0, and stop after stop equals a
single stop. -/
theorem c8_stop_idempotent (st : Rhythm.SchedState) :
    Rhythm.stop (Rhythm.stop st) = Rhythm.stop st
    ∧ (st.playing = false → Rhythm.stop st = st)
    ∧ (st.playing = true ∨ st.currentStep = 0 → (Rhythm.stop st).currentStep = 0) := by
  rcases h : st.playing <;> simp [Rhythm.stop, h]

/-- Witness for C8 at a concrete playing state with a nonzero step index. -/
theorem c8_witness :
    Rhythm.stop (Rhythm.stop ⟨true, 120, 3, 16, 0, false, false, -1, false⟩) =
      Rhythm.stop ⟨true, 120, 3, 16, 0, false, false, -1, false⟩
    ∧ (Rhythm.stop (⟨true, 120, 3, 16, 0, false, false, -1, false⟩ : Rhythm.SchedState)).currentStep = 0 :=
  ⟨(c8_stop_idempotent _).1, (c8_stop_idempotent _).2.2 (Or.inl rfl)⟩

/-- C7 counterexample: after `setLoopLength(8)`, `clear()` returns to idle
with no layers but leaves the configured bar count at 8 (not unset), and a
subsequent recording start still arms an 8-bar loop duration — the
configured loop length survives `clear()`. -/
theorem c7_counterexample :
    (Recorder.clear recConfigured).state = .idle
    ∧ (Recorder.clear recConfigured).layers = []
    ∧ ¬((Recorder.clear recConfigured).loopLengthBars = 0)
    ∧ (Recorder.actuallyStartRecording (Recorder.clear recConfigured) 0 2).loopDurationMs
        = 16000 := by
  norm_num [Recorder.clear, Recorder.stopPlayback, Recorder.setLoopLength,
    Recorder.actuallyStartRecording, Recorder.initial, recConfigured]

/-- C7 (amended): `clear()` from any state leaves the recorder idle with
zero layers, an empty working log, no blob, the computed loop duration
reset to 0, and makes both exports no-ops; the configured bar count from
`setLoopLength` is retained rather than unset. -/
theorem c7_clear (r : Recorder.RecState) :
    (Recorder.clear r).state = .idle
    ∧ (Recorder.clear r).layers = []
    ∧ (Recorder.clear r).eventLog = []
    ∧ (Recorder.clear r).audioBlob = none
    ∧ (Recorder.clear r).loopDurationMs = 0
    ∧ (Recorder.clear r).loopLengthBars = r.loopLengthBars
    ∧ (∀ decode, Recorder.exportWAV (Recorder.clear r) decode = none)
    ∧ (∀ tempo, Recorder.exportMIDI (Recorder.clear r) tempo = none) := by
  simp [Recorder.clear, Recorder.stopPlayback, Recorder.exportWAV, Recorder.exportMIDI]

/-- C3 counterexample: `startRecording()` while playing (stream available)
moves the state to counting-in, a transition the section 4.3 state machine
does not define, and not a no-op. -/
theorem c3_counterexample :
    (Recorder.startRecording recPlaying true).state = Recorder.RState.countingIn
    ∧ Recorder.section43Edge .playing .countingIn = false
    ∧ Recorder.RState.countingIn ≠ Recorder.RState.playing := by
  refine ⟨?_, rfl, by decide⟩
  simp [Recorder.startRecording, recPlaying, Recorder.initial]

/-- C3 (amended): every public recorder method is a total function that
either leaves the state unchanged or moves along a section 4.3 edge, except
that the unguarded entry points also permit: counting-in entered from
playing or overdub (`startRecording`), overdub entered from counting-in,
recording or playing, playing entered from counting-in, recording or
overdub (`playLoop`, and `startOverdub`, which ends in playing whenever a
layer exists and a stream is available because it delegates to
`playLoop`).  Observers (`getState`, the exporters) read only. -/
theorem c3_state_totality (r : Recorder.RecState) (stream : Bool) (now barDuration : ℚ)
    (bars : Option ℕ) (etype : ℕ) (midi channel velocity : Option ℕ) :
    TransOK r (Recorder.startRecording r stream)
    ∧ TransOK r (Recorder.startOverdub r stream now)
    ∧ TransOK r (Recorder.stopRecording r)
    ∧ TransOK r (Recorder.playLoop r now)
    ∧ TransOK r (Recorder.stopPlayback r)
    ∧ TransOK r (Recorder.clear r)
    ∧ (Recorder.logEvent r now etype midi channel velocity).state = r.state
    ∧ (Recorder.setLoopLength r bars barDuration).state = r.state
    ∧ Recorder.getState r = r.state := by
  rcases r with ⟨s, chunks, blob, log, rst, pbs, llb, ldm, layers, ma⟩
  rcases blob with _ | b <;> rcases layers with _ | ⟨l, ls⟩ <;> cases stream <;>
    rcases bars with _ | nb <;> cases ma <;> cases s <;>
    simp [TransOK, Recorder.startRecording, Recorder.startOverdub, Recorder.stopRecording,
      Recorder.playLoop, Recorder.stopPlayback, Recorder.clear, Recorder.logEvent,
      Recorder.setLoopLength, Recorder.getState, Recorder.section43Edge, Recorder.extraEdge]

/-- C4: the code has no generation token — after `stopRecording()` cancels
a count-in (recorder back to idle), the scheduler still holds the one-shot
callback, and when it fires `actuallyStartRecording` runs unconditionally:
the recorder enters recording and capture starts from the stale callback. -/
theorem c4_stale_count_in_starts_capture :
    (Recorder.sysStartRecording ⟨Recorder.initial, false⟩ true).recorder.state = .countingIn
    ∧ (Recorder.sysStopRecording
        (Recorder.sysStartRecording ⟨Recorder.initial, false⟩ true)).recorder.state = .idle
    ∧ (Recorder.sysStopRecording
        (Recorder.sysStartRecording ⟨Recorder.initial, false⟩ true)).countInArmed = true
    ∧ (Recorder.sysFireCountIn
        (Recorder.sysStopRecording
          (Recorder.sysStartRecording ⟨Recorder.initial, false⟩ true)) 0 2).recorder.state
        = .recording
    ∧ (Recorder.sysFireCountIn
        (Recorder.sysStopRecording
          (Recorder.sysStartRecording ⟨Recorder.initial, false⟩ true)) 0 2).recorder.mediaActive
        = true := by
  decide

/-- C9: both exporters are deterministic — equal event lists, durations and
tempo give byte-identical MIDI files, and equal decoded buffers give
byte-identical WAV files (both are pure functions of their inputs). -/
theorem c9_deterministic (e1 e2 : List Event) (d1 d2 t1 t2 : ℚ) (b1 b2 : AudioBuffer)
    (he : e1 = e2) (hd : d1 = d2) (ht : t1 = t2) (hb : b1 = b2) :
    buildMidiFile e1 d1 t1 = buildMidiFile e2 d2 t2
    ∧ audioBufferToWav b1 = audioBufferToWav b2 := by
  subst he; subst hd; subst ht; subst hb; exact ⟨rfl, rfl⟩

/-- Witness for C9 at concrete equal inputs. -/
theorem c9_witness :
    buildMidiFile [] 0 120 = buildMidiFile [] 0 120
    ∧ audioBufferToWav ⟨1, 8000, [[0, 1, -1]]⟩ = audioBufferToWav ⟨1, 8000, [[0, 1, -1]]⟩ :=
  c9_deterministic [] [] 0 0 120 120 _ _ rfl rfl rfl rfl

/-- C10: the WAV encoder clamps before scaling, so for every input sample —
in range or not — the written 16-bit value lies in [-32768, 32767], and its
two little-endian bytes decode back to it (no wrap-around). -/
theorem c10_sample_clamped (q : ℚ) :
    -32768 ≤ convSample q ∧ convSample q ≤ 32767
    ∧ decode16s (int16le (convSample q)) = convSample q := by
  have h1 : -1 ≤ clampSample q := le_max_left _ _
  have h2 : clampSample q ≤ 1 := max_le (by norm_num) (min_le_left _ _)
  have hb : -32768 ≤ convSample q ∧ convSample q ≤ 32767 := by
    simp only [convSample, jsTrunc]
    set s := clampSample q with hs
    by_cases hneg : s < 0
    · rw [if_pos hneg, if_neg (by nlinarith : ¬(0:ℚ) ≤ s * 32768)]
      have hfl : ⌊-(s * 32768)⌋ ≤ 32768 := by
        have hle : -(s * 32768) ≤ (32768:ℚ) := by nlinarith
        calc ⌊-(s * 32768)⌋ ≤ ⌊(32768:ℚ)⌋ := Int.floor_mono hle
        _ = 32768 := by norm_num
      have h0 : 0 ≤ ⌊-(s * 32768)⌋ := Int.floor_nonneg.mpr (by nlinarith)
      omega
    · push_neg at hneg
      rw [if_neg (not_lt.mpr hneg), if_pos (by nlinarith : (0:ℚ) ≤ s * 32767)]
      have hfl : ⌊s * 32767⌋ ≤ 32767 := by
        have hle : s * 32767 ≤ (32767:ℚ) := by nlinarith
        calc ⌊s * 32767⌋ ≤ ⌊(32767:ℚ)⌋ := Int.floor_mono hle
        _ = 32767 := by norm_num
      have h0 : 0 ≤ ⌊s * 32767⌋ := Int.floor_nonneg.mpr (by nlinarith)
      omega
  exact ⟨hb.1, hb.2, int16le_decode _ hb.1 hb.2⟩

/-- C2: no drift — start the idle scheduler at clock time `t0` with any
fixed tempo and pattern; then over any sequence of wake-up times and any
loop fuel, the `k`-th dispatched step is step `k mod N` scheduled at
exactly `t0 + k·(60/tempo/4)`: `nextDueTime` is advanced additively and
never re-derived from the wake-up clock, so the times are independent of
the wake-up pattern and error does not accumulate. -/
theorem c2_no_drift (st0 : Rhythm.SchedState) (t0 : ℚ) (h0 : st0.playing = false)
    (nows : List ℚ) (fuel : ℕ) (k : ℕ)
    (hk : k < ((Rhythm.schedRun (Rhythm.start st0 t0) nows fuel).1).length) :
    ((Rhythm.schedRun (Rhythm.start st0 t0) nows fuel).1).getD k (0, 0)
      = (k % st0.patternSteps, t0 + k * (60 / st0.tempo / 4)) := by
  have hs : Rhythm.start st0 t0
      = { st0 with playing := true, currentStep := 0, nextStepTime := t0 } := by
    simp [Rhythm.start, h0]
  obtain ⟨m, hm, _, _, _, _⟩ := schedRun_spec nows fuel (Rhythm.start st0 t0) t0 0
    (by rw [hs]; simp) (by rw [hs]; simp)
  rw [hm] at hk ⊢
  simp only [List.length_map, List.length_range] at hk
  rw [List.getD_eq_getElem _ _ (by simp [hk])]
  simp [hk, hs]

/-- Witness for C2: idle scheduler at tempo 120 with a 16-step pattern,
wake-ups at times 0 and 0.3; the third dispatched step is step 2 at exactly
two sixteenth-note durations after the start. -/
theorem c2_witness :
    (⟨false, 120, 0, 16, 0, false, false, -1, false⟩ : Rhythm.SchedState).playing = false
    ∧ 2 < ((Rhythm.schedRun
        (Rhythm.start ⟨false, 120, 0, 16, 0, false, false, -1, false⟩ 0) [0, 3/10] 8).1).length
    ∧ ((Rhythm.schedRun
        (Rhythm.start ⟨false, 120, 0, 16, 0, false, false, -1, false⟩ 0) [0, 3/10] 8).1).getD 2 (0, 0)
      = (2, 1/4) := by
  have hk : 2 < ((Rhythm.schedRun
      (Rhythm.start ⟨false, 120, 0, 16, 0, false, false, -1, false⟩ 0) [0, 3/10] 8).1).length := by
    norm_num [Rhythm.schedRun, Rhythm.schedLoop, Rhythm.loopBody, Rhythm.scheduleStep,
      Rhythm.start, Rhythm.getStepDuration, Rhythm.SCHEDULE_AHEAD]
  have h := c2_no_drift ⟨false, 120, 0, 16, 0, false, false, -1, false⟩ 0 rfl [0, 3/10] 8 2 hk
  refine ⟨rfl, hk, ?_⟩
  rw [h]
  norm_num

set_option maxHeartbeats 1000000 in
/-- C6: WAV exactness — for every decoded buffer of `K` frames at rate `R`
with `C ∈ {1, 2}` equal-length channels of samples in [-1, 1] (and the
physical 32-bit bounds on the header fields), the export is `44 + K·C·2`
bytes; the header decodes to chunkSize `36 + dataLength`, PCM tag 1,
channel count `C`, sample rate `R`, byteRate `R·C·2`, blockAlign `C·2`, 16
bits per sample and data size `K·C·2`; and the data chunk is exactly the
samples — interleaved when stereo — scaled by 32767 when positive and
32768 when negative, written as 16-bit signed little-endian words. -/
theorem c6_wav_format (chans : List (List ℚ)) (R C K : ℕ)
    (hC : C = 1 ∨ C = 2)
    (hchans : chans.length = C)
    (hlen : ∀ ch ∈ chans, ch.length = K)
    (hrange : ∀ ch ∈ chans, ∀ q ∈ ch, -1 ≤ q ∧ q ≤ 1)
    (hR : R < 4294967296)
    (hD : 36 + K * C * 2 < 4294967296)
    (hBR : R * C * 2 < 4294967296) :
    (audioBufferToWav ⟨C, R, chans⟩).length = 44 + K * C * 2
    ∧ (audioBufferToWav ⟨C, R, chans⟩).take 4 = [82, 73, 70, 70]
    ∧ decode32 (audioBufferToWav ⟨C, R, chans⟩) 4 = 36 + K * C * 2
    ∧ decode16 (audioBufferToWav ⟨C, R, chans⟩) 20 = 1
    ∧ decode16 (audioBufferToWav ⟨C, R, chans⟩) 22 = C
    ∧ decode32 (audioBufferToWav ⟨C, R, chans⟩) 24 = R
    ∧ decode32 (audioBufferToWav ⟨C, R, chans⟩) 28 = R * C * 2
    ∧ decode16 (audioBufferToWav ⟨C, R, chans⟩) 32 = C * 2
    ∧ decode16 (audioBufferToWav ⟨C, R, chans⟩) 34 = 16
    ∧ decode32 (audioBufferToWav ⟨C, R, chans⟩) 40 = K * C * 2
    ∧ (audioBufferToWav ⟨C, R, chans⟩).drop 44
      = (if C = 2 then specInterleave (chans.getD 0 []) (chans.getD 1 [])
         else chans.getD 0 []).flatMap (fun q => int16le (specScale q)) := by
  rcases hC with hC | hC <;> subst hC
  · rcases chans with _ | ⟨ch0, rest⟩
    · simp at hchans
    rcases rest with _ | ⟨ch1, rest2⟩
    swap
    · simp at hchans
    have hl0 : ch0.length = K := hlen ch0 (by simp)
    have hr0 : ∀ q ∈ ch0, -1 ≤ q ∧ q ≤ 1 := hrange ch0 (by simp)
    have hdata : ch0.flatMap (fun q => int16le (convSample q))
        = ch0.flatMap (fun q => int16le (specScale q)) :=
      flatMap_congr _ _ _ (fun x hx => by
        rw [convSample_eq_spec x (hr0 x hx).1 (hr0 x hx).2])
    have hmaster : audioBufferToWav ⟨1, R, [ch0]⟩
        = [82, 73, 70, 70] ++ le32 (36 + K * 2) ++ [87, 65, 86, 69]
          ++ [102, 109, 116, 32] ++ le32 16 ++ le16 1 ++ le16 1 ++ le32 R
          ++ le32 (R * 1 * 2) ++ le16 (1 * 2) ++ le16 16 ++ [100, 97, 116, 97]
          ++ le32 (K * 2)
          ++ ch0.flatMap (fun q => int16le (specScale q)) := by
      rw [← hdata, ← hl0]
      rfl
    have hdl : (ch0.flatMap (fun q => int16le (specScale q))).length = 2 * K := by
      rw [length_flatMap_two ch0 (fun q => int16le (specScale q)) (fun x => rfl), hl0]
    rw [hmaster]
    refine ⟨?_, by simp, ?_, ?_, ?_, ?_, ?_, ?_, ?_, ?_, by simp [le32, le16]⟩
    · simp [le32, le16, hdl]
      omega
    · simp [decode32, byteAt, le32, le16]
      omega
    · simp [decode16, byteAt, le32, le16]
    · simp [decode16, byteAt, le32, le16]
    · simp [decode32, byteAt, le32, le16]
      omega
    · simp [decode32, byteAt, le32, le16]
      omega
    · simp [decode16, byteAt, le32, le16]
    · simp [decode16, byteAt, le32, le16]
    · simp [decode32, byteAt, le32, le16]
      omega
  · rcases chans with _ | ⟨ch0, rest⟩
    · simp at hchans
    rcases rest with _ | ⟨ch1, rest2⟩
    · simp at hchans
    rcases rest2 with _ | ⟨x, xs⟩
    swap
    · simp at hchans
    have hl0 : ch0.length = K := hlen ch0 (by simp)
    have hl1 : ch1.length = K := hlen ch1 (by simp)
    have hr0 : ∀ q ∈ ch0, -1 ≤ q ∧ q ≤ 1 := hrange ch0 (by simp)
    have hr1 : ∀ q ∈ ch1, -1 ≤ q ∧ q ≤ 1 := hrange ch1 (by simp)
    have hivr : ∀ q ∈ specInterleave ch0 ch1, -1 ≤ q ∧ q ≤ 1 := by
      intro x hx
      obtain ⟨p, hp, hxp⟩ := List.mem_flatMap.mp hx
      rcases p with ⟨u, v⟩
      obtain ⟨hu, hv⟩ := List.of_mem_zip hp
      rcases (by simpa using hxp : x = u ∨ x = v) with h | h
      · exact h ▸ hr0 u hu
      · exact h ▸ hr1 v hv
    have hdata : (specInterleave ch0 ch1).flatMap (fun q => int16le (convSample q))
        = (specInterleave ch0 ch1).flatMap (fun q => int16le (specScale q)) :=
      flatMap_congr _ _ _ (fun x hx => by
        rw [convSample_eq_spec x (hivr x hx).1 (hivr x hx).2])
    have hivlen : (specInterleave ch0 ch1).length = 2 * K := by
      unfold specInterleave
      rw [length_flatMap_two (ch0.zip ch1) (fun p => [p.1, p.2]) (fun p => rfl),
        List.length_zip, hl0, hl1]
      simp
    have hmaster : audioBufferToWav ⟨2, R, [ch0, ch1]⟩
        = [82, 73, 70, 70] ++ le32 (36 + 2 * K * 2) ++ [87, 65, 86, 69]
          ++ [102, 109, 116, 32] ++ le32 16 ++ le16 1 ++ le16 2 ++ le32 R
          ++ le32 (R * 2 * 2) ++ le16 (2 * 2) ++ le16 16 ++ [100, 97, 116, 97]
          ++ le32 (2 * K * 2)
          ++ (specInterleave ch0 ch1).flatMap (fun q => int16le (specScale q)) := by
      rw [← hdata, ← hivlen, ← interleave2_eq_spec ch0 ch1 (by rw [hl0, hl1])]
      rfl
    have hdl : ((specInterleave ch0 ch1).flatMap (fun q => int16le (specScale q))).length
        = 2 * (2 * K) := by
      rw [length_flatMap_two (specInterleave ch0 ch1) (fun q => int16le (specScale q))
        (fun x => rfl), hivlen]
    rw [hmaster]
    refine ⟨?_, by simp, ?_, ?_, ?_, ?_, ?_, ?_, ?_, ?_, by simp [le32, le16]⟩
    · simp [le32, le16, hdl]
      omega
    · simp [decode32, byteAt, le32, le16]
      omega
    · simp [decode16, byteAt, le32, le16]
    · simp [decode16, byteAt, le32, le16]
    · simp [decode32, byteAt, le32, le16]
      omega
    · simp [decode32, byteAt, le32, le16]
      omega
    · simp [decode16, byteAt, le32, le16]
    · simp [decode16, byteAt, le32, le16]
    · simp [decode32, byteAt, le32, le16]
      omega

/-- Witness for C6: a mono buffer of two samples [0, 1] at 8000 Hz — 48
bytes, channel count 1 and rate 8000 decode from the header, and the data
chunk is the two scaled little-endian words. -/
theorem c6_witness :
    (audioBufferToWav ⟨1, 8000, [[0, 1]]⟩).length = 44 + 2 * 1 * 2
    ∧ decode16 (audioBufferToWav ⟨1, 8000, [[0, 1]]⟩) 22 = 1
    ∧ decode32 (audioBufferToWav ⟨1, 8000, [[0, 1]]⟩) 24 = 8000
    ∧ (audioBufferToWav ⟨1, 8000, [[0, 1]]⟩).drop 44 = [0, 0, 255, 127] := by
  have h := c6_wav_format [[0, 1]] 8000 1 2 (Or.inl rfl) rfl
    (by intro ch hch; simp at hch; subst hch; rfl)
    (by
      intro ch hch q hq
      simp at hch
      subst hch
      simp at hq
      rcases hq with h | h <;> subst h <;> norm_num)
    (by norm_num) (by norm_num) (by norm_num)
  refine ⟨h.1, h.2.2.2.2.1, h.2.2.2.2.2.1, ?_⟩
  rw [h.2.2.2.2.2.2.2.2.2.2]
  norm_num [specScale, jsTrunc, int16le]
  decide

/-- C5: count-in parity — `startCountIn` on an idle scheduler starts it and
the callback fires exactly once, at the arrival of step 0 that comes
exactly `patternSteps` scheduled steps after the start (the immediate
initial step 0 only decrements the skip); on a running scheduler the
callback fires exactly at the very next arrival of step 0, i.e. after
`(N − currentStep) mod N` further scheduled steps. -/
theorem c5_count_in_parity (st : Rhythm.SchedState) (t : ℚ)
    (hN : 0 < st.patternSteps) (hs : st.currentStep < st.patternSteps) :
    (st.playing = false →
      (Rhythm.startCountIn st t).playing = true
      ∧ ∀ k, (Rhythm.firesAt (Rhythm.startCountIn st t) k = true ↔ k = st.patternSteps))
    ∧ (st.playing = true →
      ∀ k, (Rhythm.firesAt (Rhythm.startCountIn st t) k = true
        ↔ k = (st.patternSteps - st.currentStep) % st.patternSteps)) := by
  constructor
  · intro h
    have i1 : (Rhythm.startCountIn st t).countInPending = true := by
      simp [Rhythm.startCountIn]
    have i2 : (Rhythm.startCountIn st t).countInStep = 1 := by
      simp [Rhythm.startCountIn, h]
    have i3 : (Rhythm.startCountIn st t).currentStep = 0 := by
      simp [Rhythm.startCountIn, Rhythm.start, h]
    have i4 : (Rhythm.startCountIn st t).patternSteps = st.patternSteps := by
      simp [Rhythm.startCountIn, Rhythm.start, h]
    have i5 : (Rhythm.startCountIn st t).playing = true := by
      simp [Rhythm.startCountIn, Rhythm.start, h]
    refine ⟨i5, ?_⟩
    have hskip := loopBody_skip (Rhythm.startCountIn st t) i1 i3 (by rw [i2]; norm_num)
    obtain ⟨q1, q2, q3, q4⟩ := loopBody_fields (Rhythm.startCountIn st t)
    have s1p : (Rhythm.iterBody (Rhythm.startCountIn st t) 1).countInPending = true := by
      rw [iterBody_succ]
      simp only [Rhythm.iterBody]
      rw [hskip.2.1]
    have s1c : (Rhythm.iterBody (Rhythm.startCountIn st t) 1).countInStep = 0 := by
      rw [iterBody_succ]
      simp only [Rhythm.iterBody]
      rw [hskip.2.2, i2]
      norm_num
    have s1s : (Rhythm.iterBody (Rhythm.startCountIn st t) 1).currentStep
        = 1 % st.patternSteps := by
      rw [iterBody_succ]
      simp only [Rhythm.iterBody]
      rw [q3, i3, i4]
    have s1N : (Rhythm.iterBody (Rhythm.startCountIn st t) 1).patternSteps
        = st.patternSteps := by
      rw [iterBody_succ]
      simp only [Rhythm.iterBody]
      rw [q2, i4]
    have hcore := coreFire (Rhythm.iterBody (Rhythm.startCountIn st t) 1) s1p s1c
      (by rw [s1s, s1N]; exact Nat.mod_lt 1 hN)
    have hk0 : ((Rhythm.iterBody (Rhythm.startCountIn st t) 1).patternSteps
        - (Rhythm.iterBody (Rhythm.startCountIn st t) 1).currentStep)
          % (Rhythm.iterBody (Rhythm.startCountIn st t) 1).patternSteps
        = st.patternSteps - 1 := by
      rw [s1s, s1N]
      by_cases hN1 : st.patternSteps = 1
      · simp [hN1]
      · rw [Nat.mod_eq_of_lt (show 1 < st.patternSteps by omega)]
        exact Nat.mod_eq_of_lt (by omega)
    intro k
    cases k with
    | zero =>
      have h0 : Rhythm.firesAt (Rhythm.startCountIn st t) 0 = false := hskip.1
      simp [h0]
      omega
    | succ d =>
      have hsplit : d + 1 = 1 + d := by omega
      rw [hsplit, firesAt_add, hcore d, hk0]
      omega
  · intro h
    have j1 : (Rhythm.startCountIn st t).countInPending = true := by
      simp [Rhythm.startCountIn]
    have j2 : (Rhythm.startCountIn st t).countInStep = 0 := by
      simp [Rhythm.startCountIn, h]
    have j3 : (Rhythm.startCountIn st t).currentStep = st.currentStep := by
      simp [Rhythm.startCountIn, Rhythm.start, h]
    have j4 : (Rhythm.startCountIn st t).patternSteps = st.patternSteps := by
      simp [Rhythm.startCountIn, Rhythm.start, h]
    have hcore := coreFire (Rhythm.startCountIn st t) j1 j2 (by rw [j3, j4]; exact hs)
    intro k
    rw [hcore k, j3, j4]

/-- Witness for C5: idle scheduler with a 16-step pattern — the count-in
callback fires at scheduled step 16 (one full bar after the start) and, for
instance, not at step 3. -/
theorem c5_witness :
    (Rhythm.startCountIn ⟨false, 120, 0, 16, 0, false, false, -1, false⟩ 0).playing = true
    ∧ Rhythm.firesAt (Rhythm.startCountIn ⟨false, 120, 0, 16, 0, false, false, -1, false⟩ 0) 16
        = true
    ∧ Rhythm.firesAt (Rhythm.startCountIn ⟨false, 120, 0, 16, 0, false, false, -1, false⟩ 0) 3
        = false := by
  have h := c5_count_in_parity ⟨false, 120, 0, 16, 0, false, false, -1, false⟩ 0
    (by norm_num) (by norm_num)
  obtain ⟨hplay, hiff⟩ := h.1 rfl
  refine ⟨hplay, (hiff 16).mpr rfl, ?_⟩
  have h3 := hiff 3
  simp at h3
  exact h3

/-- C1 (code-bug evidence): exporting two note events logged at 0 ms and
1000 ms at tempo 120 and re-parsing the file, the deltas preceding the
second Note-On sum to 1152 ticks, while the claimed absolute tick is
`round(1000 / msPerTick) = 960` — off by the 192-tick note-off delta that
`buildMidiFile` never adds to `lastTick`, far outside ±1 tick. -/
theorem c1_midi_second_note_late :
    noteOnAbsTicks
        (buildMidiFile [⟨0, 0, some 60, none, none⟩, ⟨1000, 0, some 64, none, none⟩] 0 120)
      = [0, 1152]
    ∧ jsRound ((1000 : ℚ) / ((60000 / 120) / 480)) = 960
    ∧ (1152 : ℤ) - 960 > 1 := by
  refine ⟨?_, by norm_num [jsRound], by norm_num⟩
  have hbytes :
      buildMidiFile [⟨0, 0, some 60, none, none⟩, ⟨1000, 0, some 64, none, none⟩] 0 120
        = [77, 84, 104, 100, 0, 0, 0, 6, 0, 0, 0, 1, 1, 224, 77, 84, 114, 107, 0, 0, 0, 30,
           0, 255, 81, 3, 7, 161, 32, 0, 144, 60, 64, 129, 64, 128, 60, 0, 135, 64, 144, 64,
           64, 129, 64, 128, 64, 0, 0, 255, 47, 0] := by
    norm_num [buildMidiFile, sortEvents, insertByTime, midiEventStep, jsRound, jsOr]
    decide
  rw [hbytes]
  decide

end Openmodul

